import Mathlib

/-!
Verification of the generated asset-symbol header
`GeneratedAssetSymbols.h` of the MetacognitiveJournal build.

The header consists of a feature-detection guard for the
`swift_private` compiler attribute and four `static NSString * const`
string declarations. We embed the declarations as a list of
name/value pairs, the guard as a function of whether the compiler
supports the attribute, and the preprocessor's macro environment as an
association list, and prove the specified properties.
-/

/-- A `static NSString * const` declaration of the header: its C
identifier and its string literal value. -/
structure Decl where
  name : String
  value : String
  deriving DecidableEq, Repr

/-- The resource bundle ID (line 10 of the header). -/
def ACBundleID : String := "com.geekedoutinnovations.MetacognitiveJournal"

/-- The "AccentColor" asset catalog color resource (line 13). -/
def ACColorNameAccentColor : String := "AccentColor"

/-- The "Color" asset catalog color resource (line 16). -/
def ACColorNameColor : String := "Color"

/-- The "Image" asset catalog image resource (line 19). -/
def ACImageNameImage : String := "Image"

/-- The string-constant declarations of the header, in file order. -/
def fileDecls : List Decl :=
  [ ⟨"ACBundleID", ACBundleID⟩,
    ⟨"ACColorNameAccentColor", ACColorNameAccentColor⟩,
    ⟨"ACColorNameColor", ACColorNameColor⟩,
    ⟨"ACImageNameImage", ACImageNameImage⟩ ]

/-- The body the guard gives `AC_SWIFT_PRIVATE`: the attribute when
the compiler supports `swift_private`, the empty expansion otherwise
(lines 3 to 7 of the header). -/
def acSwiftPrivate (hasAttr : Bool) : String :=
  if hasAttr then "__attribute__((swift_private))" else ""

/-- A constant declaration after preprocessing: identifier, the text
`AC_SWIFT_PRIVATE` expanded to, and the string value. -/
structure ExpandedDecl where
  declName : String
  declAttr : String
  declValue : String
  deriving DecidableEq, Repr

/-- Expansion of one declaration under a given attribute text. -/
def expandDecl (attr : String) (d : Decl) : ExpandedDecl :=
  ⟨d.name, attr, d.value⟩

/-- The declarations the header yields after preprocessing, as a
function of whether the compiler supports `swift_private`. -/
def preprocessFile (hasAttr : Bool) : List ExpandedDecl :=
  fileDecls.map (expandDecl (acSwiftPrivate hasAttr))

/-- One step of module lifetime. The header defines no operation that
creates, mutates or destroys a constant, so a step leaves the
declarations unchanged. -/
def moduleStep (s : List Decl) : List Decl := s

/-- The declarations visible at time `t` after the module is loaded. -/
def declsAt : Nat → List Decl
  | 0 => fileDecls
  | t + 1 => moduleStep (declsAt t)

/-- Reading the constant named `n` at time `t`. -/
def readAt (n : String) (t : Nat) : Option String :=
  ((declsAt t).find? (fun d => d.name == n)).map Decl.value

/-- The preprocessor's macro environment: an association list from
macro names to their bodies, newest definition first. -/
abbrev PPEnv := List (String × String)

/-- A `#define` pushes a definition onto the environment. -/
def ppDefine (env : PPEnv) (n body : String) : PPEnv := (n, body) :: env

/-- An `#undef` removes every definition of the name. -/
def ppUndef (env : PPEnv) (n : String) : PPEnv := env.filter (fun p => p.1 != n)

/-- The body the environment currently gives a macro name, if any. -/
def ppLookup (env : PPEnv) (n : String) : Option String :=
  (env.find? (fun p => p.1 == n)).map (fun p => p.2)

/-- Processing the header over an including translation unit's macro
environment: the guard defines `AC_SWIFT_PRIVATE` (lines 3 to 7) and
line 21 undefines it again. -/
def processFile (hasAttr : Bool) (env : PPEnv) : PPEnv :=
  ppUndef (ppDefine env "AC_SWIFT_PRIVATE" (acSwiftPrivate hasAttr)) "AC_SWIFT_PRIVATE"

theorem declsAt_eq (t : Nat) : declsAt t = fileDecls := by
  induction t with
  | zero => rfl
  | succ t ih => simp [declsAt, moduleStep, ih]

theorem ppLookup_ppUndef_self (env : PPEnv) (n : String) :
    ppLookup (ppUndef env n) n = none := by
  induction env with
  | nil => rfl
  | cons p env ih =>
    by_cases h : p.1 = n
    · have h1 : (p.1 != n) = false := by simp [h]
      simp only [ppUndef, List.filter_cons, h1, if_false]
      exact ih
    · have h1 : (p.1 != n) = true := by simp [h]
      have h2 : (p.1 == n) = false := by simp [h]
      simp only [ppUndef, List.filter_cons, h1, if_true, ppLookup, List.find?_cons, h2]
      exact ih

theorem ppLookup_ppUndef_ne (env : PPEnv) (n m : String) (h : m ≠ n) :
    ppLookup (ppUndef env n) m = ppLookup env m := by
  induction env with
  | nil => rfl
  | cons p env ih =>
    by_cases hp : p.1 = n
    · have h1 : (p.1 != n) = false := by simp [hp]
      have h2 : (p.1 == m) = false := by
        rw [hp]
        exact beq_eq_false_iff_ne.mpr fun hnm => h hnm.symm
      simp only [ppUndef, List.filter_cons, h1, if_false, ppLookup, List.find?_cons, h2]
      exact ih
    · have h1 : (p.1 != n) = true := by simp [hp]
      by_cases hq : p.1 = m
      · have h2 : (p.1 == m) = true := by simp [hq]
        simp only [ppUndef, List.filter_cons, h1, if_true, ppLookup, List.find?_cons, h2]
      · have h2 : (p.1 == m) = false := by simp [hq]
        simp only [ppUndef, List.filter_cons, h1, if_true, ppLookup, List.find?_cons, h2]
        exact ih

/-- C1: the three asset-name constants have exactly the quoted values:
`ACColorNameAccentColor = "AccentColor"`, `ACColorNameColor = "Color"`
and `ACImageNameImage = "Image"`. -/
theorem asset_name_constant_values :
    ACColorNameAccentColor = "AccentColor" ∧ ACColorNameColor = "Color" ∧
      ACImageNameImage = "Image" :=
  ⟨rfl, rfl, rfl⟩

/-- C2 counterexample: the file does not declare exactly three static
string constants; the set of string constant declarations does not
have cardinality three. -/
theorem string_constant_count_not_three : ¬ (fileDecls.length = 3) := by
  decide

/-- C2 (amended): the file declares exactly four static string
constants (the bundle ID, the two color resource names and the image
resource name), and nothing else besides the feature-detection macro
guard: the set of string constant declarations has cardinality four. -/
theorem string_constant_count_is_four : fileDecls.length = 4 := rfl

/-- C3: every string constant declared in the file is a non-empty
string. -/
theorem declared_strings_nonempty (d : Decl) (hd : d ∈ fileDecls) :
    d.value ≠ "" := by
  simp only [fileDecls, List.mem_cons, List.not_mem_nil, or_false] at hd
  rcases hd with rfl | rfl | rfl | rfl <;> decide

/-- C3 witness: the bundle-ID declaration is in the file and its value
is non-empty. -/
theorem declared_strings_nonempty_witness :
    (Decl.mk "ACBundleID" ACBundleID).value ≠ "" :=
  declared_strings_nonempty (Decl.mk "ACBundleID" ACBundleID) (by decide)

/-- C4: no operation creates, mutates or destroys a constant at
runtime: the declarations are the same at any two times, and for every
constant name, reads at any two times yield the same value. -/
theorem constants_immutable (n : String) (t₁ t₂ : Nat) :
    declsAt t₁ = declsAt t₂ ∧ readAt n t₁ = readAt n t₂ := by
  constructor
  · rw [declsAt_eq, declsAt_eq]
  · simp [readAt, declsAt_eq]

/-- C5: the file's only conditional logic is the feature check on
`swift_private`: when the compiler supports the attribute the macro
expands to `__attribute__((swift_private))`, otherwise to nothing, and
in both branches every constant declaration otherwise expands
identically (same identifiers and same values, in the same order). -/
theorem feature_guard_behavior :
    acSwiftPrivate true = "__attribute__((swift_private))" ∧
    acSwiftPrivate false = "" ∧
    ∀ b₁ b₂ : Bool,
      (preprocessFile b₁).map (fun e => (e.declName, e.declValue)) =
        (preprocessFile b₂).map (fun e => (e.declName, e.declValue)) := by
  refine ⟨rfl, rfl, ?_⟩
  intro b₁ b₂
  cases b₁ <;> cases b₂ <;> rfl

/-- C6: no operation of the file is fallible: at every time, reading
each declared constant is total and succeeds, returning the declared
string value and never an error value. -/
theorem reads_always_succeed (t : Nat) :
    (fileDecls.all fun d => readAt d.name t == some d.value) = true := by
  have h := declsAt_eq t
  simp only [readAt, h]
  decide

/-- Modelled from the spec: the originating asset catalog itself is
not part of the repository (only the generated header is under the
sources). Per the spec's data-model and external-interface sections,
the catalog holds the color resources "AccentColor" and "Color", the
image resource "Image", and the bundle identifier fixed at generation
time. -/
structure AssetCatalog where
  bundleID : String
  colorNames : List String
  imageNames : List String
  deriving DecidableEq, Repr

/-- Modelled from the spec: the catalog the header was generated
from. -/
def originatingCatalog : AssetCatalog :=
  ⟨"com.geekedoutinnovations.MetacognitiveJournal",
    ["AccentColor", "Color"], ["Image"]⟩

/-- C7: each declared constant is a bit-exact match of the
corresponding identifier of the originating asset catalog: the bundle
ID equals the catalog's bundle identifier, each color-name constant is
a color resource name of the catalog, and the image-name constant is
an image resource name of the catalog. -/
theorem constants_match_catalog :
    ACBundleID = originatingCatalog.bundleID ∧
    ACColorNameAccentColor ∈ originatingCatalog.colorNames ∧
    ACColorNameColor ∈ originatingCatalog.colorNames ∧
    ACImageNameImage ∈ originatingCatalog.imageNames := by
  refine ⟨rfl, ?_, ?_, ?_⟩ <;> decide

/-- C8: the bundle identifier constant `ACBundleID` equals exactly
`"com.geekedoutinnovations.MetacognitiveJournal"`. -/
theorem bundle_id_value :
    ACBundleID = "com.geekedoutinnovations.MetacognitiveJournal" := rfl

/-- C9: the four declared constants are pairwise distinct, both in
name and in string value: the names and values are exactly the quoted
lists, and neither list has a duplicate. -/
theorem constants_pairwise_distinct :
    fileDecls.map Decl.name =
      ["ACBundleID", "ACColorNameAccentColor", "ACColorNameColor",
        "ACImageNameImage"] ∧
    fileDecls.map Decl.value =
      ["com.geekedoutinnovations.MetacognitiveJournal", "AccentColor",
        "Color", "Image"] ∧
    (fileDecls.map Decl.name).Nodup ∧ (fileDecls.map Decl.value).Nodup := by
  refine ⟨rfl, rfl, ?_, ?_⟩ <;> decide

/-- C10 counterexample: the macro environment of an including
translation unit is not always unchanged with respect to
`AC_SWIFT_PRIVATE`: a unit that had `AC_SWIFT_PRIVATE` defined before
including the file loses that definition to the final `#undef`. -/
theorem macro_env_not_always_unchanged :
    ¬ (ppLookup (processFile true [("AC_SWIFT_PRIVATE", "1")]) "AC_SWIFT_PRIVATE" =
        ppLookup [("AC_SWIFT_PRIVATE", "1")] "AC_SWIFT_PRIVATE") := by
  decide

/-- C10 (amended): `AC_SWIFT_PRIVATE` is undefined again at the end of
the file, so after processing it is undefined; every other macro name
is untouched; and for any including translation unit that did not
already define `AC_SWIFT_PRIVATE`, the whole macro environment is
unchanged. -/
theorem macro_guard_no_leak (b : Bool) (env : PPEnv) :
    ppLookup (processFile b env) "AC_SWIFT_PRIVATE" = none ∧
    (∀ n : String, n ≠ "AC_SWIFT_PRIVATE" →
      ppLookup (processFile b env) n = ppLookup env n) ∧
    (ppLookup env "AC_SWIFT_PRIVATE" = none →
      ∀ n : String, ppLookup (processFile b env) n = ppLookup env n) := by
  have hself : ppLookup (processFile b env) "AC_SWIFT_PRIVATE" = none :=
    ppLookup_ppUndef_self _ _
  have hne : ∀ n : String, n ≠ "AC_SWIFT_PRIVATE" →
      ppLookup (processFile b env) n = ppLookup env n := by
    intro n hn
    unfold processFile
    rw [ppLookup_ppUndef_ne _ _ _ hn]
    have h2 : ((("AC_SWIFT_PRIVATE", acSwiftPrivate b) : String × String).1 == n) = false :=
      beq_eq_false_iff_ne.mpr fun hx => hn hx.symm
    simp only [ppDefine, ppLookup, List.find?_cons, h2]
  refine ⟨hself, hne, ?_⟩
  intro h0 n
  by_cases hn : n = "AC_SWIFT_PRIVATE"
  · rw [hn, hself, h0]
  · exact hne n hn

/-- C10 witness: over an environment with one unrelated macro, the
amended theorem applies and that macro is unchanged. -/
theorem macro_guard_no_leak_witness :
    ppLookup (processFile true [("FOO", "1")]) "FOO" =
      ppLookup [("FOO", "1")] "FOO" :=
  (macro_guard_no_leak true [("FOO", "1")]).2.1 "FOO" (by decide)
